import Mathlib

/-!
A shallow embedding of the asynchronous task scheduling and execution engine of
`src/core/task_manager.py` (class `TaskManager` and its `Task` dataclass), together
with proofs about the engine's scheduler, executor and cancellation behaviour.

Modelling conventions:
* `datetime` timestamps are natural numbers; `datetime.now()` is the `now` field of
  the engine state.  Within a single Python-level operation no time passes except
  for the executor's explicit retry backoff (`asyncio.sleep(2 ** retry_count)`),
  which advances `now`.  Handler-internal awaits are treated as instantaneous,
  since none of the verified properties depend on handler latency.
* Python dictionaries keyed by strings become association lists that preserve
  insertion order (as Python dicts do); `Dict[str, Any]` values of `parameters`
  and `result` are modelled as string-valued association lists.  The engine only
  ever inspects `result.get('error')`.
* The mutable `Task` objects shared between `self.tasks`, `self.scheduled_tasks`
  and `self.active_tasks` are modelled by keeping the single authoritative copy in
  the `tasks` map and storing task ids in the two lists; every mutation of a task
  is written back to the map (`setTask`), which is exactly what aliasing gives the
  Python code.  Membership tests on the Python lists use dataclass equality, which
  coincides with id equality because ids are unique.
* Handlers are external collaborators: whether a handler's awaits raise an
  exception is decided by an environment `Env`; when a known handler completes
  normally it returns the literal result mapping built by the corresponding
  `_execute_*` method (opaque identifiers such as fresh UUID fragments and price
  strings are abstracted to fixed placeholders — the engine never reads them).
* `uuid.uuid4()` is modelled by a fresh counter `nextId`; logging and database
  calls are recorded in an event `trace` (`logger.info`/`logger.error` lines that
  matter to the spec, `save_task`, `update_task`, and the backoff sleeps).
* `asyncio.create_task` (used by `process_pending_tasks`) only schedules a
  coroutine: nothing of `_execute_task` runs until the loop next yields.  The
  scheduled-but-not-yet-started coroutines are the `spawnQueue`; `startSpawned`
  is the moment the event loop gives each of them control and they run the prefix
  of `_execute_task` up to its first await (lines 116-119: mark running, append to
  `active_tasks`); `finishSpawned` runs the remainder.
-/

namespace VedNet

/-- The `Task` dataclass (task_manager.py lines 15-35).  `priority`: 1-10, 1 highest.
Default `max_retries = 3`, `retry_count = 0`, `parameters`/`result` default to
empty mappings (`__post_init__`). -/
structure Task where
  id : String
  type : String
  status : String
  created_at : Nat
  scheduled_at : Option Nat := none
  completed_at : Option Nat := none
  command : String := ""
  parameters : List (String × String) := []
  result : List (String × String) := []
  priority : Int := 5
  max_retries : Nat := 3
  retry_count : Nat := 0
deriving DecidableEq

/-- Observable events of one engine run: the log lines, database calls and backoff
sleeps that the verified properties talk about.  `executing` carries the task as it
is when `_execute_task` is entered (line 116), `retrying` carries the incremented
`retry_count` (line 157 logs attempt `retry_count + 1` after the increment),
`sleep` is the backoff duration of line 158, `dbSave`/`dbUpdate` are
`database.save_task` (line 102) and `database.update_task` (lines 166, 357). -/
inductive Event where
  | executing : Task → Event
  | errorLog : String → String → Event
  | retrying : String → Nat → Event
  | sleep : Nat → Event
  | dbSave : Task → Event
  | dbUpdate : Task → Event
deriving DecidableEq

/-- The engine state: `TaskManager.__init__` (lines 42-56) plus the model's clock,
fresh-id counter, event trace, and the event loop's queue of coroutines created by
`asyncio.create_task` but not yet started. -/
structure MState where
  tasks : List (String × Task) := []
  scheduled_tasks : List String := []
  active_tasks : List String := []
  spawnQueue : List String := []
  max_concurrent_tasks : Nat := 5
  task_timeout : Nat := 300
  nextId : Nat := 0
  now : Nat := 0
  trace : List Event := []
deriving DecidableEq

/-- The initial state of a fresh `TaskManager`. -/
def initState : MState := {}

/-- Write a task into the `tasks` dict under its id, preserving insertion order
(Python dict update keeps the existing position of the key). -/
def setTask : List (String × Task) → Task → List (String × Task)
  | [], t => [(t.id, t)]
  | (k, old) :: rest, t => if k = t.id then (k, t) :: rest else (k, old) :: setTask rest t

/-- Lookup `self.tasks.get(task_id)`. -/
def lookupTask (m : List (String × Task)) (id : String) : Option Task :=
  match m with
  | [] => none
  | (k, t) :: rest => if k = id then some t else lookupTask rest id

/-- Reads `parameters.get(key, default)` for the handler bodies. -/
def getParam (t : Task) (key dflt : String) : String :=
  match t.parameters.lookup key with
  | some v => v
  | none => dflt

/-- Handler `_execute_food_order` (lines 170-191): the simulated success mapping.  The
fresh `order_id` fragment and the computed cost are abstracted to placeholders;
the engine never inspects them. -/
def execute_food_order (t : Task) : List (String × String) :=
  let platform := getParam t "platform" "swiggy"
  let food_type := getParam t "food_type" "pizza"
  let quantity := getParam t "quantity" "1"
  [("success", "True"),
   ("message", "Order placed for " ++ quantity ++ " " ++ food_type ++ " from " ++ platform),
   ("order_id", "ORDER_UUID"),
   ("estimated_delivery", "30-45 minutes"),
   ("total_cost", "INR")]

/-- Handler `_execute_movie_booking` (lines 193-214). -/
def execute_movie_booking (t : Task) : List (String × String) :=
  let movie_name := getParam t "movie_name" "Latest Movie"
  let time := getParam t "time" "evening"
  [("success", "True"),
   ("message", "Movie ticket booked for " ++ movie_name),
   ("booking_id", "BMS_UUID"),
   ("movie", movie_name),
   ("time", time),
   ("theater", "PVR Cinemas"),
   ("seats", "F12, F13"),
   ("total_cost", "INR")]

/-- Handler `_execute_shopping` (lines 216-239). -/
def execute_shopping (t : Task) : List (String × String) :=
  let item_type := getParam t "item_type" "item"
  let color := getParam t "color" ""
  let platform := getParam t "platform" "amazon"
  let item_description := color ++ " " ++ item_type
  [("success", "True"),
   ("message", "Found " ++ item_description ++ " on " ++ platform),
   ("item", item_description),
   ("platform", platform),
   ("price", "INR"),
   ("availability", "In Stock"),
   ("delivery", "Tomorrow")]

/-- Handler `_execute_reminder` (lines 241-258). -/
def execute_reminder (t : Task) : List (String × String) :=
  let reminder_text := getParam t "reminder_text" "General reminder"
  let time := getParam t "time" "now"
  [("success", "True"),
   ("message", "Reminder set: " ++ reminder_text),
   ("reminder", reminder_text),
   ("time", time)]

/-- Handler `_execute_weather` (lines 260-277). -/
def execute_weather (t : Task) : List (String × String) :=
  let location := getParam t "location" "current location"
  [("success", "True"),
   ("location", location),
   ("temperature", "24C"),
   ("condition", "Partly Cloudy"),
   ("humidity", "65 percent"),
   ("wind", "10 km/h")]

/-- Handler `_execute_news` (lines 279-297). -/
def execute_news (t : Task) : List (String × String) :=
  let category := getParam t "category" "general"
  [("success", "True"),
   ("category", category),
   ("headlines", "Tech stocks rise amid AI optimism")]

/-- Handler `_execute_search` (lines 299-317).  `query` defaults to the task's command. -/
def execute_search (t : Task) : List (String × String) :=
  let query := getParam t "query" t.command
  [("success", "True"),
   ("query", query),
   ("results", "Result 1 for " ++ query)]

/-- The task types handled by the dispatch chain of `_execute_task`
(lines 123-136). -/
def knownTypes : List String :=
  ["food_order", "movie_booking", "shopping", "reminder", "weather", "news", "search"]

/-- The dispatch chain of `_execute_task` (lines 123-138): result of the handler
for a known type, or the unknown-task-type error mapping of line 138. -/
def builtinResult (t : Task) : List (String × String) :=
  if t.type = "food_order" then execute_food_order t
  else if t.type = "movie_booking" then execute_movie_booking t
  else if t.type = "shopping" then execute_shopping t
  else if t.type = "reminder" then execute_reminder t
  else if t.type = "weather" then execute_weather t
  else if t.type = "news" then execute_news t
  else if t.type = "search" then execute_search t
  else [("error", "Unknown task type: " ++ t.type)]

/-- The outcome of running the body of the `try` block once: the handler's result
mapping, or an exception raised inside it. -/
inductive HandlerOutcome where
  | ok : List (String × String) → HandlerOutcome
  | raised : String → HandlerOutcome
deriving DecidableEq

/-- The environment decides whether a handler's awaits raise.  `some msg` means the
handler invocation for this task raises an exception rendered as `msg`; `none`
means it completes normally and returns `builtinResult`.  The unknown-task-type
branch (line 138) runs no handler code, so it cannot raise. -/
abbrev Env : Type := Task → Option String

/-- One run of the dispatch of lines 123-138 under environment `env`. -/
def handlerOutcome (env : Env) (t : Task) : HandlerOutcome :=
  if knownTypes.contains t.type then
    match env t with
    | some msg => .raised msg
    | none => .ok (builtinResult t)
  else .ok (builtinResult t)

/-- The `result.get('error')` truthiness: the failure test of line 141.  A missing key
or an empty string is falsy. -/
def errTruthy (r : List (String × String)) : Bool :=
  match r.lookup "error" with
  | some v => v ≠ ""
  | none => false

/-- The `finally` block of `_execute_task` (lines 161-166): remove the task from
`active_tasks` if present (`List.erase` removes the first occurrence and is the
identity when absent, matching the guarded `remove`), write the task's current
state back through the alias in `self.tasks`, and call `database.update_task`. -/
def finalizeTask (s : MState) (t : Task) : MState × Task :=
  ({ s with active_tasks := s.active_tasks.erase t.id,
            tasks := setTask s.tasks t,
            trace := s.trace ++ [Event.dbUpdate t] }, t)

/-- Lines 116-119 of `_execute_task`: the prefix of every attempt that runs before
the first await — log the entry, set status `running`, append to `active_tasks`.
This is also exactly what a coroutine spawned by `process_pending_tasks` executes
when the event loop first gives it control. -/
def beginAttempt (s : MState) (t : Task) : MState × Task :=
  let s := { s with trace := s.trace ++ [Event.executing t] }
  let t := { t with status := "running" }
  ({ s with tasks := setTask s.tasks t, active_tasks := s.active_tasks ++ [t.id] }, t)

/-- Lines 140-144 plus the `finally`: record the handler's result, derive
`completed`/`failed` from the `error` key, stamp `completed_at`. -/
def applyOk (s : MState) (t : Task) (result : List (String × String)) : MState × Task :=
  finalizeTask s
    { t with result := result,
             status := if errTruthy result then "failed" else "completed",
             completed_at := some s.now }

/-- Lines 147-150: an exception from the handler is caught; record the error
result, status `failed`, `completed_at`. -/
def recordFailure (s : MState) (t : Task) (msg : String) : MState × Task :=
  let t := { t with result := [("error", msg)], status := "failed", completed_at := some s.now }
  ({ s with trace := s.trace ++ [Event.errorLog t.id msg] }, t)

/-- Lines 153-158: re-arm a failed task — increment `retry_count`, set status back
to `pending`, clear `completed_at`, then sleep `2 ** retry_count` (with the
already-incremented count) before re-running. -/
def rearm (s : MState) (t : Task) : MState × Task :=
  let t := { t with retry_count := t.retry_count + 1, status := "pending", completed_at := none }
  ({ s with trace := s.trace ++ [Event.retrying t.id t.retry_count, Event.sleep (2 ^ t.retry_count)],
            now := s.now + 2 ^ t.retry_count }, t)

/-- The body of `_execute_task` after its first await (lines 121-167): run the
handler, and on an exception retry through the recursive call of line 159, which
re-enters `_execute_task` from the top (`beginAttempt`).  The recursion depth is
bounded by the remaining retry budget, so it is given as structural recursion on a
fuel that callers instantiate with `max_retries - retry_count`; the `0` equation is
the same failure path with the recursive call cut off, and
`execRestFuel_fuel_irrelevant` below proves that this truncation is never exercised
at the callers' fuel.  Note the Python `finally` of an outer attempt runs only
after the recursive inner attempt has returned, hence `finalizeTask` wrapping the
recursive call. -/
def execRestFuel (env : Env) : Nat → MState → Task → MState × Task
  | 0, s, t =>
    match handlerOutcome env t with
    | .ok result => applyOk s t result
    | .raised msg =>
      let p := recordFailure s t msg
      if p.2.retry_count < p.2.max_retries then
        let q := rearm p.1 p.2
        finalizeTask q.1 q.2
      else finalizeTask p.1 p.2
  | fuel + 1, s, t =>
    match handlerOutcome env t with
    | .ok result => applyOk s t result
    | .raised msg =>
      let p := recordFailure s t msg
      if p.2.retry_count < p.2.max_retries then
        let q := rearm p.1 p.2
        let b := beginAttempt q.1 q.2
        let r := execRestFuel env fuel b.1 b.2
        finalizeTask r.1 r.2
      else finalizeTask p.1 p.2

/-- Method `_execute_task` (lines 106-168): one full run, retries included. -/
def executeTask (env : Env) (s : MState) (t : Task) : MState × Task :=
  let b := beginAttempt s t
  execRestFuel env (t.max_retries - t.retry_count) b.1 b.2

/-- The fresh `Task` built by `create_task` (lines 81-90). -/
def createdTask (s : MState) (task_type command : String) (parameters : List (String × String))
    (scheduled_at : Option Nat) (priority : Int) : Task :=
  { id := toString s.nextId, type := task_type, status := "pending",
    created_at := s.now, scheduled_at := scheduled_at, command := command,
    parameters := parameters, priority := priority }

/-- Method `create_task` (lines 58-104): store the new task; if `scheduled_at` is set and
strictly in the future, append to the scheduled list, otherwise execute the task
immediately (line 99 awaits `_execute_task` inline); then `database.save_task` on
the task object (which on the immediate path is already in its final state), and
return the task id. -/
def create_task (env : Env) (s : MState) (task_type command : String)
    (parameters : List (String × String)) (scheduled_at : Option Nat) (priority : Int) :
    MState × String :=
  let t := createdTask s task_type command parameters scheduled_at priority
  let s := { s with nextId := s.nextId + 1, tasks := setTask s.tasks t }
  let r :=
    match scheduled_at with
    | some ts =>
      if s.now < ts then ({ s with scheduled_tasks := s.scheduled_tasks ++ [t.id] }, t)
      else executeTask env s t
    | none => executeTask env s t
  ({ r.1 with trace := r.1.trace ++ [Event.dbSave r.2] }, t.id)

/-- Method `check_scheduled_tasks` (lines 319-326): snapshot `current_time` and the
scheduled list, then for every task whose `scheduled_at` has passed, remove it
from the scheduled list and execute it (line 326 awaits `_execute_task` directly —
nothing moves to a pending queue). -/
def check_scheduled_tasks (env : Env) (s : MState) : MState :=
  let current_time := s.now
  s.scheduled_tasks.foldl
    (fun acc id =>
      match lookupTask acc.tasks id with
      | some t =>
        match t.scheduled_at with
        | some ts =>
          if ts ≤ current_time then
            (executeTask env { acc with scheduled_tasks := acc.scheduled_tasks.erase id } t).1
          else acc
        | none => acc
      | none => acc)
    s

/-- The sort key comparison of line 333: Python's tuple order on
`(priority, created_at)`. -/
def taskLEP (a b : Task) : Prop :=
  a.priority < b.priority ∨ (a.priority = b.priority ∧ a.created_at ≤ b.created_at)

instance taskLEPDecidable : DecidableRel taskLEP := fun a b =>
  decidable_of_iff (a.priority < b.priority ∨ (a.priority = b.priority ∧ a.created_at ≤ b.created_at))
    Iff.rfl

instance taskLEPTotal : IsTotal Task taskLEP := by
  constructor
  intro a b
  unfold taskLEP
  omega

instance taskLEPTrans : IsTrans Task taskLEP := by
  constructor
  intro a b c hab hbc
  unfold taskLEP at hab hbc ⊢
  omega

/-- Lines 330-333 of `process_pending_tasks`: the pending tasks, sorted by
`(priority, created_at)`.  `list.sort` is stable, as is `List.insertionSort`, so
for a total preorder key they produce the same list. -/
def pendingSorted (s : MState) : List Task :=
  List.insertionSort taskLEP ((s.tasks.map Prod.snd).filter (fun t => t.status = "pending"))

/-- The eligibility guard of line 338:
`task.scheduled_at is None or task.scheduled_at <= datetime.now()`. -/
def eligibleNow (s : MState) (t : Task) : Bool :=
  match t.scheduled_at with
  | none => true
  | some ts => ts ≤ s.now

/-- Method `process_pending_tasks` (lines 328-339).  The `while` loop contains no await
and `asyncio.create_task` only schedules the coroutine, so `active_tasks` cannot
grow while the loop runs: if the budget test passes once it passes for every
iteration and every eligible pending task is scheduled, in sorted order; if it
fails, nothing is scheduled. -/
def process_pending_tasks (s : MState) : MState :=
  if s.active_tasks.length < s.max_concurrent_tasks then
    { s with spawnQueue :=
        s.spawnQueue ++ (((pendingSorted s).filter (eligibleNow s)).map Task.id) }
  else s

/-- The event loop starting every coroutine queued by `asyncio.create_task`: each
runs the prefix of `_execute_task` before its first await (`beginAttempt`). -/
def startSpawned (s : MState) : MState :=
  s.spawnQueue.foldl
    (fun acc id =>
      match lookupTask acc.tasks id with
      | some t => (beginAttempt acc t).1
      | none => acc)
    { s with spawnQueue := [] }

/-- A started coroutine resuming after its handler's first await and running the
rest of `_execute_task` (lines 121-167) to completion. -/
def finishSpawned (env : Env) (s : MState) (id : String) : MState :=
  match lookupTask s.tasks id with
  | some t =>
    if t.status = "running" then (execRestFuel env (t.max_retries - t.retry_count) s t).1
    else s
  | none => s

/-- Method `cancel_task` (lines 350-360): legal only for status `pending` or `scheduled`;
set status `cancelled`, drop the task from the scheduled list if it is there, and
persist; otherwise return `False` with no state change. -/
def cancel_task (s : MState) (task_id : String) : MState × Bool :=
  match lookupTask s.tasks task_id with
  | some t =>
    if t.status = "pending" ∨ t.status = "scheduled" then
      let t := { t with status := "cancelled" }
      ({ s with tasks := setTask s.tasks t,
                scheduled_tasks := s.scheduled_tasks.erase task_id,
                trace := s.trace ++ [Event.dbUpdate t] }, true)
    else (s, false)
  | none => (s, false)

/-- One observable step of the engine: a caller invoking the public API, the
periodic loop invoking the two polling methods, the event loop starting or
resuming spawned coroutines, or wall-clock time passing. -/
inductive Step : MState → MState → Prop where
  | create (s : MState) (env : Env) (ty cmd : String) (ps : List (String × String))
      (sa : Option Nat) (pr : Int) : Step s (create_task env s ty cmd ps sa pr).1
  | checkScheduled (s : MState) (env : Env) : Step s (check_scheduled_tasks env s)
  | processPending (s : MState) : Step s (process_pending_tasks s)
  | spawnStart (s : MState) : Step s (startSpawned s)
  | spawnFinish (s : MState) (env : Env) (id : String) : Step s (finishSpawned env s id)
  | cancel (s : MState) (id : String) : Step s (cancel_task s id).1
  | tick (s : MState) (dt : Nat) : Step s { s with now := s.now + dt }

/-- States reachable from a fresh `TaskManager`. -/
def Reachable (s : MState) : Prop := Relation.ReflTransGen Step initState s

/-- An environment in which every handler completes normally. -/
def envOk : Env := fun _ => none

/-- An environment in which every handler invocation raises. -/
def envRaise : Env := fun _ => some "boom"

/-- Recognises an `_execute_task` entry (one handler attempt). -/
def isExecuting : Event → Bool
  | .executing _ => true
  | _ => false

/-- Recognises the retry protocol events (the re-arm log and the backoff sleep). -/
def isRetryEvent : Event → Bool
  | .retrying _ _ => true
  | .sleep _ => true
  | _ => false

/-- The `tasks` dict binds every task under its own id (true of every state the
engine can produce, since `create_task` stores the fresh task under its id and
every later write goes through `setTask`). -/
def WellKeyed (s : MState) : Prop := ∀ p ∈ s.tasks, p.2.id = p.1

/-- The per-task invariants of the data model: the retry count never exceeds the
budget, and the status string `"scheduled"` is never assigned. -/
def Pinv (t : Task) : Prop := t.retry_count ≤ t.max_retries ∧ t.status ≠ "scheduled"

/-- All tasks of a map satisfy `Pinv`. -/
def TasksOK (m : List (String × Task)) : Prop := ∀ p ∈ m, Pinv p.2

theorem lookupTask_setTask_self (m : List (String × Task)) (t : Task) :
    lookupTask (setTask m t) t.id = some t := by
  induction m with
  | nil => simp [setTask, lookupTask]
  | cons p rest ih =>
    by_cases h : p.1 = t.id
    · simp [setTask, lookupTask, h]
    · simp [setTask, lookupTask, h, ih]

theorem lookupTask_setTask_ne (m : List (String × Task)) (t : Task) (k : String)
    (h : k ≠ t.id) : lookupTask (setTask m t) k = lookupTask m k := by
  induction m with
  | nil =>
    simp only [setTask, lookupTask]
    rw [if_neg (fun hk : t.id = k => h hk.symm)]
  | cons p rest ih =>
    by_cases hp : p.1 = t.id
    · simp only [setTask, if_pos hp, lookupTask]
      by_cases hk : p.1 = k <;> simp_all
    · simp only [setTask, if_neg hp, lookupTask]
      by_cases hk : p.1 = k <;> simp [hk, ih]

theorem lookupTask_mem (m : List (String × Task)) (k : String) (t : Task)
    (h : lookupTask m k = some t) : (k, t) ∈ m := by
  induction m with
  | nil => simp [lookupTask] at h
  | cons p rest ih =>
    simp only [lookupTask] at h
    by_cases hp : p.1 = k
    · rw [if_pos hp] at h
      have hpt : p = (k, t) := by
        cases p
        simp_all
      rw [← hpt]
      exact List.mem_cons_self _ _
    · rw [if_neg hp] at h
      exact List.mem_cons_of_mem _ (ih h)

theorem mem_setTask (m : List (String × Task)) (t : Task) (p : String × Task)
    (h : p ∈ setTask m t) : p = (t.id, t) ∨ p ∈ m := by
  induction m with
  | nil => simpa [setTask] using h
  | cons q rest ih =>
    simp only [setTask] at h
    by_cases hq : q.1 = t.id
    · rw [if_pos hq] at h
      rcases List.mem_cons.1 h with h1 | h1
      · left
        rw [h1, hq]
      · right
        exact List.mem_cons_of_mem _ h1
    · rw [if_neg hq] at h
      rcases List.mem_cons.1 h with h1 | h1
      · right
        exact h1 ▸ List.mem_cons_self _ _
      · rcases ih h1 with h2 | h2
        · exact Or.inl h2
        · exact Or.inr (List.mem_cons_of_mem _ h2)

theorem tasksOK_setTask (m : List (String × Task)) (t : Task)
    (hm : TasksOK m) (ht : Pinv t) : TasksOK (setTask m t) := by
  intro p hp
  rcases mem_setTask m t p hp with h | h
  · rw [h]
    exact ht
  · exact hm p h

theorem tasksOK_lookup (m : List (String × Task)) (k : String) (t : Task)
    (hm : TasksOK m) (h : lookupTask m k = some t) : Pinv t :=
  hm (k, t) (lookupTask_mem m k t h)

/-- Erasing the element appended at the end is, up to permutation, erasing any
occurrence: `(l ++ [a]).erase a` is a permutation of `l`. -/
theorem erase_append_singleton_perm (l : List String) (a : String) :
    ((l ++ [a]).erase a).Perm l := by
  have h1 : (l ++ [a]).Perm (a :: l) := List.perm_append_singleton a l
  have h2 := h1.erase a
  rw [List.erase_cons_head] at h2
  exact h2

theorem recordFailure_snd (s : MState) (t : Task) (msg : String) :
    (recordFailure s t msg).2 =
      { t with result := [("error", msg)], status := "failed", completed_at := some s.now } :=
  rfl

theorem recordFailure_fst (s : MState) (t : Task) (msg : String) :
    (recordFailure s t msg).1 = { s with trace := s.trace ++ [Event.errorLog t.id msg] } :=
  rfl

theorem rearm_snd (s : MState) (t : Task) :
    (rearm s t).2 =
      { t with retry_count := t.retry_count + 1, status := "pending", completed_at := none } :=
  rfl

theorem rearm_fst (s : MState) (t : Task) :
    (rearm s t).1 =
      { s with trace := s.trace ++ [Event.retrying t.id (t.retry_count + 1),
                  Event.sleep (2 ^ (t.retry_count + 1))],
               now := s.now + 2 ^ (t.retry_count + 1) } :=
  rfl

theorem beginAttempt_snd (s : MState) (t : Task) :
    (beginAttempt s t).2 = { t with status := "running" } :=
  rfl

theorem beginAttempt_fst (s : MState) (t : Task) :
    (beginAttempt s t).1 =
      { s with trace := s.trace ++ [Event.executing t],
               tasks := setTask s.tasks { t with status := "running" },
               active_tasks := s.active_tasks ++ [t.id] } :=
  rfl

/-- Lemma: `applyOk` satisfies every conjunct of the executor specification. -/
theorem applyOk_spec (s : MState) (t : Task) (result : List (String × String)) :
    ((applyOk s t result).1.active_tasks).Perm (s.active_tasks.erase t.id) ∧
    (∃ d, (applyOk s t result).1.trace =
      s.trace ++ d ++ [Event.dbUpdate (applyOk s t result).2]) ∧
    ((applyOk s t result).2.status = "completed" ∨ (applyOk s t result).2.status = "failed") ∧
    (applyOk s t result).2.id = t.id ∧
    lookupTask (applyOk s t result).1.tasks t.id = some (applyOk s t result).2 := by
  refine ⟨List.Perm.refl _, ⟨[], by simp [applyOk, finalizeTask]⟩, ?_, rfl,
    lookupTask_setTask_self ..⟩
  by_cases h : errTruthy result <;> simp [applyOk, finalizeTask, h]

/-- A failure with the retry budget exhausted satisfies every conjunct of the
executor specification. -/
theorem failExhaust_spec (s : MState) (t : Task) (msg : String) :
    ((finalizeTask (recordFailure s t msg).1 (recordFailure s t msg).2).1.active_tasks).Perm
        (s.active_tasks.erase t.id) ∧
    (∃ d, (finalizeTask (recordFailure s t msg).1 (recordFailure s t msg).2).1.trace =
      s.trace ++ d ++
        [Event.dbUpdate (finalizeTask (recordFailure s t msg).1 (recordFailure s t msg).2).2]) ∧
    ((finalizeTask (recordFailure s t msg).1 (recordFailure s t msg).2).2.status = "completed" ∨
      (finalizeTask (recordFailure s t msg).1 (recordFailure s t msg).2).2.status = "failed") ∧
    (finalizeTask (recordFailure s t msg).1 (recordFailure s t msg).2).2.id = t.id ∧
    lookupTask (finalizeTask (recordFailure s t msg).1 (recordFailure s t msg).2).1.tasks t.id =
      some (finalizeTask (recordFailure s t msg).1 (recordFailure s t msg).2).2 :=
  ⟨List.Perm.refl _, ⟨[Event.errorLog t.id msg], by simp [recordFailure, finalizeTask]⟩,
    Or.inr rfl, rfl, lookupTask_setTask_self ..⟩

/-- The core correctness of the executor body (`execRestFuel`), for any fuel that
covers the remaining retry budget: the task's entry in `active_tasks` is removed
(up to permutation — the Python `finally` removes one occurrence per attempt and
each retry attempt appended one), the trace ends with `database.update_task` of
the returned task, the returned task is terminal (`completed` or `failed`), keeps
its id, and is the task stored in the map under that id. -/
theorem execRestFuel_spec (env : Env) (fuel : Nat) :
    ∀ (s : MState) (t : Task), t.max_retries - t.retry_count ≤ fuel →
      ((execRestFuel env fuel s t).1.active_tasks).Perm (s.active_tasks.erase t.id) ∧
      (∃ d, (execRestFuel env fuel s t).1.trace =
        s.trace ++ d ++ [Event.dbUpdate (execRestFuel env fuel s t).2]) ∧
      ((execRestFuel env fuel s t).2.status = "completed" ∨
        (execRestFuel env fuel s t).2.status = "failed") ∧
      (execRestFuel env fuel s t).2.id = t.id ∧
      lookupTask (execRestFuel env fuel s t).1.tasks t.id =
        some (execRestFuel env fuel s t).2 := by
  induction fuel with
  | zero =>
    intro s t hf
    cases hE : handlerOutcome env t with
    | ok result =>
      simp only [execRestFuel, hE]
      exact applyOk_spec s t result
    | raised msg =>
      simp only [execRestFuel, hE]
      have hng : ¬ (recordFailure s t msg).2.retry_count < (recordFailure s t msg).2.max_retries :=
        by simp only [recordFailure_snd]; omega
      rw [if_neg hng]
      exact failExhaust_spec s t msg
  | succ fuel ih =>
    intro s t hf
    cases hE : handlerOutcome env t with
    | ok result =>
      simp only [execRestFuel, hE]
      exact applyOk_spec s t result
    | raised msg =>
      simp only [execRestFuel, hE]
      by_cases hg : t.retry_count < t.max_retries
      · have hg2 : (recordFailure s t msg).2.retry_count < (recordFailure s t msg).2.max_retries :=
          by simp only [recordFailure_snd]; exact hg
        rw [if_pos hg2]
        have hrc : (beginAttempt (rearm (recordFailure s t msg).1 (recordFailure s t msg).2).1
            (rearm (recordFailure s t msg).1 (recordFailure s t msg).2).2).2.max_retries -
            (beginAttempt (rearm (recordFailure s t msg).1 (recordFailure s t msg).2).1
            (rearm (recordFailure s t msg).1 (recordFailure s t msg).2).2).2.retry_count ≤ fuel :=
          by simp only [beginAttempt_snd, rearm_snd, recordFailure_snd]; omega
        obtain ⟨hperm, ⟨d, hd⟩, hstat, hid, hlook⟩ := ih _ _ hrc
        have hid' : (execRestFuel env fuel
            (beginAttempt (rearm (recordFailure s t msg).1 (recordFailure s t msg).2).1
              (rearm (recordFailure s t msg).1 (recordFailure s t msg).2).2).1
            (beginAttempt (rearm (recordFailure s t msg).1 (recordFailure s t msg).2).1
              (rearm (recordFailure s t msg).1 (recordFailure s t msg).2).2).2).2.id = t.id :=
          by rw [hid]; simp only [beginAttempt_snd, rearm_snd, recordFailure_snd]
        constructor
        · simp only [finalizeTask]
          rw [hid']
          refine (hperm.erase t.id).trans ?_
          have hactive : (beginAttempt (rearm (recordFailure s t msg).1
              (recordFailure s t msg).2).1
              (rearm (recordFailure s t msg).1 (recordFailure s t msg).2).2).1.active_tasks =
              s.active_tasks ++ [t.id] := by
            simp only [beginAttempt_fst, rearm_fst, recordFailure_fst, rearm_snd,
              recordFailure_snd]
          have hbid : (beginAttempt (rearm (recordFailure s t msg).1
              (recordFailure s t msg).2).1
              (rearm (recordFailure s t msg).1 (recordFailure s t msg).2).2).2.id = t.id := by
            simp only [beginAttempt_snd, rearm_snd, recordFailure_snd]
          rw [hactive, hbid]
          exact (erase_append_singleton_perm s.active_tasks t.id).erase t.id
        constructor
        · refine ⟨[Event.errorLog t.id msg, Event.retrying t.id (t.retry_count + 1),
            Event.sleep (2 ^ (t.retry_count + 1)),
            Event.executing (rearm (recordFailure s t msg).1 (recordFailure s t msg).2).2] ++ d ++
            [Event.dbUpdate (execRestFuel env fuel
              (beginAttempt (rearm (recordFailure s t msg).1 (recordFailure s t msg).2).1
                (rearm (recordFailure s t msg).1 (recordFailure s t msg).2).2).1
              (beginAttempt (rearm (recordFailure s t msg).1 (recordFailure s t msg).2).1
                (rearm (recordFailure s t msg).1 (recordFailure s t msg).2).2).2).2],
            ?_⟩
          simp only [finalizeTask]
          rw [hd]
          simp only [beginAttempt_fst, rearm_fst, recordFailure_fst, rearm_snd,
            recordFailure_snd]
          simp [List.append_assoc]
        refine ⟨hstat, hid', ?_⟩
        simp only [finalizeTask]
        rw [← hid']
        exact lookupTask_setTask_self ..
      · have hng : ¬ (recordFailure s t msg).2.retry_count <
            (recordFailure s t msg).2.max_retries :=
          by simp only [recordFailure_snd]; exact hg
        rw [if_neg hng]
        exact failExhaust_spec s t msg

/-- Method `_execute_task` as a whole: on every exit — success, terminal failure, retries
included, whether or not the handler raised — the task's `active_tasks` entry is
gone again (the final list is a permutation of the initial one), the trace starts
the attempt with the entry log and ends with `database.update_task` of the final
task, the final task is terminal, keeps its id, and is what the map stores. -/
theorem executeTask_spec (env : Env) (s : MState) (t : Task) :
    ((executeTask env s t).1.active_tasks).Perm s.active_tasks ∧
    (∃ d, (executeTask env s t).1.trace =
      s.trace ++ [Event.executing t] ++ d ++ [Event.dbUpdate (executeTask env s t).2]) ∧
    ((executeTask env s t).2.status = "completed" ∨ (executeTask env s t).2.status = "failed") ∧
    (executeTask env s t).2.id = t.id ∧
    lookupTask (executeTask env s t).1.tasks t.id = some (executeTask env s t).2 := by
  unfold executeTask
  obtain ⟨hperm, ⟨d, hd⟩, hstat, hid, hlook⟩ :=
    execRestFuel_spec env (t.max_retries - t.retry_count) (beginAttempt s t).1 (beginAttempt s t).2
      (by simp only [beginAttempt_snd]; omega)
  have hbid : (beginAttempt s t).2.id = t.id := by simp only [beginAttempt_snd]
  have hid' : (execRestFuel env (t.max_retries - t.retry_count) (beginAttempt s t).1
      (beginAttempt s t).2).2.id = t.id := by rw [hid, hbid]
  refine ⟨?_, ⟨d, ?_⟩, hstat, hid', ?_⟩
  · refine hperm.trans ?_
    have hactive : (beginAttempt s t).1.active_tasks = s.active_tasks ++ [t.id] := by
      simp only [beginAttempt_fst]
    rw [hactive, hbid]
    exact erase_append_singleton_perm s.active_tasks t.id
  · rw [hd]
    have htrace : (beginAttempt s t).1.trace = s.trace ++ [Event.executing t] := by
      simp only [beginAttempt_fst]
    rw [htrace]
  · rw [← hbid]
    exact hlook

/-- Lemma: `execRestFuel` preserves the per-task invariants: every task it writes back to
the map keeps `retry_count ≤ max_retries` and never carries status `"scheduled"`,
and so does the task it returns. -/
theorem execRestFuel_inv (env : Env) (fuel : Nat) :
    ∀ (s : MState) (t : Task), TasksOK s.tasks → t.retry_count ≤ t.max_retries →
      TasksOK (execRestFuel env fuel s t).1.tasks ∧ Pinv (execRestFuel env fuel s t).2 := by
  induction fuel with
  | zero =>
    intro s t hs ht
    cases hE : handlerOutcome env t with
    | ok result =>
      simp only [execRestFuel, hE, applyOk, finalizeTask]
      have hp : Pinv { t with
              result := result,
              status := if errTruthy result then "failed" else "completed",
              completed_at := some s.now } := by
        constructor
        · exact ht
        · by_cases h : errTruthy result <;> simp [h]
      exact ⟨tasksOK_setTask _ _ hs hp, hp⟩
    | raised msg =>
      by_cases hg : t.retry_count < t.max_retries
      · simp only [execRestFuel, hE, recordFailure_fst, recordFailure_snd, rearm_fst, rearm_snd]
        rw [if_pos hg]
        exact ⟨tasksOK_setTask _ _ hs ⟨hg, by simp⟩, hg, by simp [finalizeTask]⟩
      · simp only [execRestFuel, hE, recordFailure_fst, recordFailure_snd]
        rw [if_neg hg]
        exact ⟨tasksOK_setTask _ _ hs ⟨ht, by simp⟩, ht, by simp [finalizeTask]⟩
  | succ fuel ih =>
    intro s t hs ht
    cases hE : handlerOutcome env t with
    | ok result =>
      simp only [execRestFuel, hE, applyOk, finalizeTask]
      have hp : Pinv { t with
              result := result,
              status := if errTruthy result then "failed" else "completed",
              completed_at := some s.now } := by
        constructor
        · exact ht
        · by_cases h : errTruthy result <;> simp [h]
      exact ⟨tasksOK_setTask _ _ hs hp, hp⟩
    | raised msg =>
      by_cases hg : t.retry_count < t.max_retries
      · have hg2 : (recordFailure s t msg).2.retry_count < (recordFailure s t msg).2.max_retries :=
          by simp only [recordFailure_snd]; exact hg
        simp only [execRestFuel, hE, if_pos hg2]
        have hbOK : TasksOK (beginAttempt (rearm (recordFailure s t msg).1
            (recordFailure s t msg).2).1
            (rearm (recordFailure s t msg).1 (recordFailure s t msg).2).2).1.tasks := by
          simp only [beginAttempt_fst, rearm_fst, rearm_snd, recordFailure_fst,
            recordFailure_snd]
          refine tasksOK_setTask _ _ hs ?_
          exact ⟨by simp; omega, by simp⟩
        have hbrc : (beginAttempt (rearm (recordFailure s t msg).1
            (recordFailure s t msg).2).1
            (rearm (recordFailure s t msg).1 (recordFailure s t msg).2).2).2.retry_count ≤
            (beginAttempt (rearm (recordFailure s t msg).1 (recordFailure s t msg).2).1
            (rearm (recordFailure s t msg).1 (recordFailure s t msg).2).2).2.max_retries := by
          simp only [beginAttempt_snd, rearm_snd, recordFailure_snd]
          omega
        obtain ⟨hrOK, hrp⟩ := ih _ _ hbOK hbrc
        simp only [finalizeTask]
        exact ⟨tasksOK_setTask _ _ hrOK hrp, hrp⟩
      · simp only [execRestFuel, hE, recordFailure_fst, recordFailure_snd]
        rw [if_neg hg]
        exact ⟨tasksOK_setTask _ _ hs ⟨ht, by simp⟩, ht, by simp [finalizeTask]⟩

/-- Method `_execute_task` preserves the per-task invariants of the whole map. -/
theorem executeTask_inv (env : Env) (s : MState) (t : Task)
    (hs : TasksOK s.tasks) (ht : t.retry_count ≤ t.max_retries) :
    TasksOK (executeTask env s t).1.tasks := by
  unfold executeTask
  have hb : TasksOK (beginAttempt s t).1.tasks := by
    simp only [beginAttempt_fst]
    exact tasksOK_setTask _ _ hs ⟨ht, by simp⟩
  have hbrc : (beginAttempt s t).2.retry_count ≤ (beginAttempt s t).2.max_retries := by
    simp only [beginAttempt_snd]
    exact ht
  exact (execRestFuel_inv env (t.max_retries - t.retry_count) _ _ hb hbrc).1

theorem foldl_tasksOK (f : MState → String → MState)
    (hf : ∀ acc id, TasksOK acc.tasks → TasksOK (f acc id).tasks) :
    ∀ (l : List String) (acc : MState), TasksOK acc.tasks → TasksOK (l.foldl f acc).tasks := by
  intro l
  induction l with
  | nil => intro acc h; exact h
  | cons x xs ih => intro acc h; exact ih _ (hf acc x h)

theorem create_task_inv (env : Env) (s : MState) (ty cmd : String)
    (ps : List (String × String)) (sa : Option Nat) (pr : Int) (hs : TasksOK s.tasks) :
    TasksOK (create_task env s ty cmd ps sa pr).1.tasks := by
  have hins : TasksOK (setTask s.tasks (createdTask s ty cmd ps sa pr)) :=
    tasksOK_setTask _ _ hs ⟨by simp [createdTask], by simp [createdTask]⟩
  have hrc : (createdTask s ty cmd ps sa pr).retry_count ≤
      (createdTask s ty cmd ps sa pr).max_retries := by simp [createdTask]
  unfold create_task
  cases sa with
  | none => exact executeTask_inv env _ _ hins hrc
  | some ts =>
    by_cases h : s.now < ts
    · simp only [if_pos h]
      exact hins
    · simp only [if_neg h]
      exact executeTask_inv env _ _ hins hrc

theorem check_scheduled_inv (env : Env) (s : MState) (hs : TasksOK s.tasks) :
    TasksOK (check_scheduled_tasks env s).tasks := by
  unfold check_scheduled_tasks
  refine foldl_tasksOK _ ?_ _ _ hs
  intro acc id hacc
  cases hL : lookupTask acc.tasks id with
  | none => simpa [hL] using hacc
  | some t =>
    cases hts : t.scheduled_at with
    | none => simpa [hL, hts] using hacc
    | some ts =>
      by_cases h : ts ≤ s.now
      · simp only [hL, hts, if_pos h]
        exact executeTask_inv env _ _ hacc (tasksOK_lookup _ _ _ hacc hL).1
      · simpa [hL, hts, h] using hacc

theorem process_pending_tasks_eq (s : MState) :
    (process_pending_tasks s).tasks = s.tasks ∧
    (process_pending_tasks s).scheduled_tasks = s.scheduled_tasks ∧
    (process_pending_tasks s).active_tasks = s.active_tasks := by
  unfold process_pending_tasks
  by_cases h : s.active_tasks.length < s.max_concurrent_tasks <;> simp [h]

theorem startSpawned_inv (s : MState) (hs : TasksOK s.tasks) :
    TasksOK (startSpawned s).tasks := by
  unfold startSpawned
  refine foldl_tasksOK _ ?_ _ _ hs
  intro acc id hacc
  cases hL : lookupTask acc.tasks id with
  | none => simpa [hL] using hacc
  | some t =>
    simp only [hL, beginAttempt_fst]
    exact tasksOK_setTask _ _ hacc ⟨(tasksOK_lookup _ _ _ hacc hL).1, by simp⟩

theorem finishSpawned_inv (env : Env) (s : MState) (id : String) (hs : TasksOK s.tasks) :
    TasksOK (finishSpawned env s id).tasks := by
  unfold finishSpawned
  cases hL : lookupTask s.tasks id with
  | none => exact hs
  | some t =>
    by_cases h : t.status = "running"
    · simp only [if_pos h]
      exact (execRestFuel_inv env _ _ _ hs (tasksOK_lookup _ _ _ hs hL).1).1
    · simp only [if_neg h]
      exact hs

theorem cancel_task_inv (s : MState) (id : String) (hs : TasksOK s.tasks) :
    TasksOK (cancel_task s id).1.tasks := by
  unfold cancel_task
  cases hL : lookupTask s.tasks id with
  | none => exact hs
  | some t =>
    by_cases h : t.status = "pending" ∨ t.status = "scheduled"
    · simp only [if_pos h]
      exact tasksOK_setTask _ _ hs ⟨(tasksOK_lookup _ _ _ hs hL).1, by simp⟩
    · simp only [if_neg h]
      exact hs

/-- Every engine step preserves the per-task invariants. -/
theorem step_inv (s s' : MState) (h : Step s s') (hs : TasksOK s.tasks) : TasksOK s'.tasks := by
  cases h with
  | create env ty cmd ps sa pr => exact create_task_inv env s ty cmd ps sa pr hs
  | checkScheduled env => exact check_scheduled_inv env s hs
  | processPending => rw [(process_pending_tasks_eq s).1]; exact hs
  | spawnStart => exact startSpawned_inv s hs
  | spawnFinish env id => exact finishSpawned_inv env s id hs
  | cancel id => exact cancel_task_inv s id hs
  | tick dt => exact hs

/-- In every reachable state, every stored task satisfies the data-model
invariants: `retry_count ≤ max_retries` and status never `"scheduled"`. -/
theorem reachable_tasksOK (s : MState) (hs : Reachable s) : TasksOK s.tasks := by
  induction hs with
  | refl => intro p hp; simp [initState] at hp
  | tail hab hbc ih => exact step_inv _ _ hbc ih

theorem wellKeyed_lookup (s : MState) (hW : WellKeyed s) (k : String) (t : Task)
    (h : lookupTask s.tasks k = some t) : t.id = k :=
  hW (k, t) (lookupTask_mem _ _ _ h)

/-- With an environment in which every handler invocation raises, the executor
body keeps retrying until the budget is exhausted: the final `retry_count` equals
`max_retries`, the final status is `failed`, and the remaining attempts each log
one `executing` entry. -/
theorem execRestFuel_alwaysFail (env : Env) (hfail : ∀ u, (env u).isSome) (fuel : Nat) :
    ∀ (s : MState) (t : Task), knownTypes.contains t.type = true →
      t.max_retries - t.retry_count = fuel → t.retry_count ≤ t.max_retries →
      (execRestFuel env fuel s t).2.retry_count = t.max_retries ∧
      (execRestFuel env fuel s t).2.status = "failed" ∧
      ((execRestFuel env fuel s t).1.trace.filter isExecuting).length =
        (s.trace.filter isExecuting).length + fuel := by
  induction fuel with
  | zero =>
    intro s t hk hful hrc
    obtain ⟨msg, hmsg⟩ : ∃ m, env t = some m := Option.isSome_iff_exists.1 (hfail t)
    have hk2 : t.type ∈ knownTypes := by simpa using hk
    have hE : handlerOutcome env t = .raised msg := by
      simp [handlerOutcome, hk2, hmsg]
    simp only [execRestFuel, hE, recordFailure_fst, recordFailure_snd]
    have hng : ¬ t.retry_count < t.max_retries := by omega
    rw [if_neg hng]
    refine ⟨?_, rfl, ?_⟩
    · simp only [finalizeTask]
      omega
    · simp [finalizeTask, isExecuting, List.filter_append]
  | succ fuel ih =>
    intro s t hk hful hrc
    obtain ⟨msg, hmsg⟩ : ∃ m, env t = some m := Option.isSome_iff_exists.1 (hfail t)
    have hk2 : t.type ∈ knownTypes := by simpa using hk
    have hE : handlerOutcome env t = .raised msg := by
      simp [handlerOutcome, hk2, hmsg]
    have hg2 : (recordFailure s t msg).2.retry_count < (recordFailure s t msg).2.max_retries := by
      simp only [recordFailure_snd]
      omega
    simp only [execRestFuel, hE]
    rw [if_pos hg2]
    have hkB : knownTypes.contains (beginAttempt (rearm (recordFailure s t msg).1
        (recordFailure s t msg).2).1
        (rearm (recordFailure s t msg).1 (recordFailure s t msg).2).2).2.type = true := by
      simpa only [beginAttempt_snd, rearm_snd, recordFailure_snd] using hk
    have hfB : (beginAttempt (rearm (recordFailure s t msg).1 (recordFailure s t msg).2).1
        (rearm (recordFailure s t msg).1 (recordFailure s t msg).2).2).2.max_retries -
        (beginAttempt (rearm (recordFailure s t msg).1 (recordFailure s t msg).2).1
        (rearm (recordFailure s t msg).1 (recordFailure s t msg).2).2).2.retry_count = fuel := by
      simp only [beginAttempt_snd, rearm_snd, recordFailure_snd]
      omega
    have hrB : (beginAttempt (rearm (recordFailure s t msg).1 (recordFailure s t msg).2).1
        (rearm (recordFailure s t msg).1 (recordFailure s t msg).2).2).2.retry_count ≤
        (beginAttempt (rearm (recordFailure s t msg).1 (recordFailure s t msg).2).1
        (rearm (recordFailure s t msg).1 (recordFailure s t msg).2).2).2.max_retries := by
      simp only [beginAttempt_snd, rearm_snd, recordFailure_snd]
      omega
    obtain ⟨h1, h2, h3⟩ := ih _ _ hkB hfB hrB
    have hBtrace : (beginAttempt (rearm (recordFailure s t msg).1 (recordFailure s t msg).2).1
        (rearm (recordFailure s t msg).1 (recordFailure s t msg).2).2).1.trace =
        s.trace ++ [Event.errorLog t.id msg, Event.retrying t.id (t.retry_count + 1),
          Event.sleep (2 ^ (t.retry_count + 1)),
          Event.executing (rearm (recordFailure s t msg).1 (recordFailure s t msg).2).2] := by
      simp only [beginAttempt_fst, rearm_fst, recordFailure_fst, recordFailure_snd]
      simp [List.append_assoc]
    refine ⟨?_, ?_, ?_⟩
    · simp only [finalizeTask]
      rw [h1]
      simp only [beginAttempt_snd, rearm_snd, recordFailure_snd]
    · simp only [finalizeTask]
      exact h2
    · simp only [finalizeTask, List.filter_append, List.length_append]
      rw [h3, hBtrace]
      simp [isExecuting, List.filter_append]
      omega

/-- Method `_execute_task` under an always-raising environment: terminal `failed`,
`retry_count` driven up to `max_retries`, and `max_retries - retry_count + 1`
total attempts logged. -/
theorem executeTask_alwaysFail (env : Env) (hfail : ∀ u, (env u).isSome)
    (s : MState) (t : Task) (hk : knownTypes.contains t.type = true)
    (hrc : t.retry_count ≤ t.max_retries) :
    (executeTask env s t).2.retry_count = t.max_retries ∧
    (executeTask env s t).2.status = "failed" ∧
    ((executeTask env s t).1.trace.filter isExecuting).length =
      (s.trace.filter isExecuting).length + (t.max_retries - t.retry_count) + 1 := by
  unfold executeTask
  obtain ⟨h1, h2, h3⟩ := execRestFuel_alwaysFail env hfail (t.max_retries - t.retry_count)
    (beginAttempt s t).1 (beginAttempt s t).2
    (by simpa only [beginAttempt_snd] using hk)
    (by simp only [beginAttempt_snd])
    (by simp only [beginAttempt_snd]; omega)
  have hmax : (beginAttempt s t).2.max_retries = t.max_retries := by
    simp only [beginAttempt_snd]
  have htr : (beginAttempt s t).1.trace = s.trace ++ [Event.executing t] := by
    simp only [beginAttempt_fst]
  refine ⟨by rw [h1, hmax], h2, ?_⟩
  rw [h3, htr]
  simp [isExecuting, List.filter_append]
  omega

/-- A reachable state holding one deferred task: `create_task` with
`scheduled_at = 100` invoked on the fresh engine.  The fresh id is `"0"`. -/
def reachEx : MState := (create_task envOk initState "weather" "" [] (some 100) 5).1

/-- The task record that `reachEx` stores under id `"0"`. -/
def reachExTask : Task :=
  { id := "0", type := "weather", status := "pending", created_at := 0,
    scheduled_at := some 100, priority := 5 }

theorem reachEx_reachable : Reachable reachEx :=
  Relation.ReflTransGen.tail Relation.ReflTransGen.refl
    (Step.create initState envOk "weather" "" [] (some 100) 5)

/-- Priority-1 task created at time 5 (the claim's task A). -/
def taskA : Task :=
  { id := "A", type := "weather", status := "pending", created_at := 5, priority := 1 }

/-- Priority-1 task created at time 9 (the claim's task B). -/
def taskB : Task :=
  { id := "B", type := "weather", status := "pending", created_at := 9, priority := 1 }

/-- Priority-5 task created at time 1 (the claim's task C). -/
def taskC : Task :=
  { id := "C", type := "weather", status := "pending", created_at := 1, priority := 5 }

/-- An engine state holding the three pending tasks A, B, C of the
priority-ordering scenario. -/
def c6state : MState := { initState with tasks := [("C", taskC), ("A", taskA), ("B", taskB)] }

/-- C6: the selection step of `process_pending_tasks` (lines 330-333) orders the
pending tasks by `(priority, created_at)`, both ascending — the sorted list is
`taskLEP`-sorted and a permutation of the pending tasks — and on the concrete
scenario A(priority 1, created 5), B(priority 1, created 9), C(priority 5,
created 1) selecting three tasks yields `[A, B, C]`. -/
theorem c6_priority_ordering :
    (∀ s : MState, List.Sorted taskLEP (pendingSorted s) ∧
      (pendingSorted s).Perm ((s.tasks.map Prod.snd).filter (fun t => t.status = "pending"))) ∧
    (pendingSorted c6state).take 3 = [taskA, taskB, taskC] := by
  refine ⟨fun s => ⟨List.sorted_insertionSort taskLEP _, List.perm_insertionSort taskLEP _⟩, ?_⟩
  decide

/-- The always-failing retry-exhaustion scenario task: `max_retries = 2`. -/
def c7task : Task :=
  { id := "r", type := "search", status := "pending", created_at := 0, max_retries := 2 }

/-- C7: a task whose handler always raises, with `max_retries = 2` and a fresh
`retry_count`, ends terminally `failed` with `retry_count = 2` after exactly three
logged attempts (initial plus two retries); and in every reachable state every
stored task has `retry_count ≤ max_retries`. -/
theorem c7_retry_exhaustion :
    (∀ (env : Env) (s : MState) (t : Task),
      (∀ u, (env u).isSome) → knownTypes.contains t.type = true →
      t.retry_count = 0 → t.max_retries = 2 →
      (executeTask env s t).2.status = "failed" ∧
      (executeTask env s t).2.retry_count = 2 ∧
      ((executeTask env s t).1.trace.filter isExecuting).length =
        (s.trace.filter isExecuting).length + 3) ∧
    (∀ s, Reachable s → ∀ id t, lookupTask s.tasks id = some t →
      t.retry_count ≤ t.max_retries) := by
  constructor
  · intro env s t hfail hk h0 h2
    obtain ⟨ha, hb, hc⟩ := executeTask_alwaysFail env hfail s t hk (by omega)
    refine ⟨hb, by rw [ha, h2], ?_⟩
    rw [hc, h0, h2]
  · intro s hs id t h
    exact (tasksOK_lookup _ _ _ (reachable_tasksOK s hs) h).1

theorem c7_retry_exhaustion_witness :
    ((executeTask envRaise initState c7task).2.status = "failed" ∧
     (executeTask envRaise initState c7task).2.retry_count = 2 ∧
     ((executeTask envRaise initState c7task).1.trace.filter isExecuting).length =
       (initState.trace.filter isExecuting).length + 3) ∧
    reachExTask.retry_count ≤ reachExTask.max_retries := by
  refine ⟨?_, ?_⟩
  · have h := c7_retry_exhaustion.1 envRaise initState c7task (fun u => rfl) (by decide) rfl rfl
    exact ⟨h.1, h.2.1, h.2.2⟩
  · exact c7_retry_exhaustion.2 reachEx reachEx_reachable "0" reachExTask (by decide)

instance wellKeyedDecidable (s : MState) : Decidable (WellKeyed s) :=
  decidable_of_iff (∀ p ∈ s.tasks, p.2.id = p.1) Iff.rfl

theorem cancel_task_none (s : MState) (id : String) (h : lookupTask s.tasks id = none) :
    cancel_task s id = (s, false) := by
  unfold cancel_task
  rw [h]

theorem cancel_task_some_yes (s : MState) (id : String) (t : Task)
    (h : lookupTask s.tasks id = some t)
    (hstat : t.status = "pending" ∨ t.status = "scheduled") :
    cancel_task s id =
      ({ s with tasks := setTask s.tasks { t with status := "cancelled" },
                scheduled_tasks := s.scheduled_tasks.erase id,
                trace := s.trace ++ [Event.dbUpdate { t with status := "cancelled" }] }, true) := by
  unfold cancel_task
  rw [h]
  simp only [if_pos hstat]

theorem cancel_task_some_no (s : MState) (id : String) (t : Task)
    (h : lookupTask s.tasks id = some t)
    (hstat : ¬ (t.status = "pending" ∨ t.status = "scheduled")) :
    cancel_task s id = (s, false) := by
  unfold cancel_task
  rw [h]
  simp only [if_neg hstat]

/-- C8: `cancel_task` (lines 350-360) succeeds exactly when the task exists with
status `pending` or `scheduled`; on success the task becomes `cancelled` and is
erased from the scheduled list; on failure the state is returned unchanged with
`False`. -/
theorem c8_cancel_legality (s : MState) (id : String) (hW : WellKeyed s) :
    ((cancel_task s id).2 = true ↔
      ∃ t, lookupTask s.tasks id = some t ∧ (t.status = "pending" ∨ t.status = "scheduled")) ∧
    (∀ t, lookupTask s.tasks id = some t → t.status = "pending" ∨ t.status = "scheduled" →
      lookupTask (cancel_task s id).1.tasks id = some { t with status := "cancelled" } ∧
      (cancel_task s id).1.scheduled_tasks = s.scheduled_tasks.erase id ∧
      (cancel_task s id).1.trace = s.trace ++ [Event.dbUpdate { t with status := "cancelled" }]) ∧
    ((cancel_task s id).2 = false → cancel_task s id = (s, false)) := by
  cases hL : lookupTask s.tasks id with
  | none =>
    rw [cancel_task_none s id hL]
    refine ⟨by simp, ?_, fun _ => rfl⟩
    intro t ht
    simp at ht
  | some t =>
    have hid : t.id = id := wellKeyed_lookup s hW id t hL
    by_cases hstat : t.status = "pending" ∨ t.status = "scheduled"
    · rw [cancel_task_some_yes s id t hL hstat]
      refine ⟨⟨fun _ => ⟨t, rfl, hstat⟩, fun _ => rfl⟩, ?_, ?_⟩
      · intro u hu _
        have hut : t = u := Option.some.inj hu
        subst hut
        refine ⟨?_, rfl, rfl⟩
        have hself := lookupTask_setTask_self s.tasks { t with status := "cancelled" }
        simpa [hid] using hself
      · intro habs
        simp at habs
    · rw [cancel_task_some_no s id t hL hstat]
      refine ⟨?_, ?_, fun _ => rfl⟩
      · constructor
        · intro h
          simp at h
        · intro h
          obtain ⟨u, hu, hus⟩ := h
          have hut : t = u := Option.some.inj hu
          subst hut
          exact absurd hus hstat
      · intro u hu hus
        have hut : t = u := Option.some.inj hu
        subst hut
        exact absurd hus hstat

theorem c8_cancel_legality_witness :
    lookupTask (cancel_task reachEx "0").1.tasks "0" =
      some { reachExTask with status := "cancelled" } ∧
    cancel_task reachEx "1" = (reachEx, false) := by
  have h1 := c8_cancel_legality reachEx "0" (by decide)
  have h2 := c8_cancel_legality reachEx "1" (by decide)
  exact ⟨(h1.2.1 reachExTask (by decide) (by decide)).1, h2.2.2 (by decide)⟩

/-- C10: in every reachable state, no stored task ever has status `"scheduled"`
(a deferred task waits in the scheduled list with status `"pending"`), so the
`"scheduled"` arm of `cancel_task`'s status test matches no reachable task:
whenever `cancel_task` succeeds, the task's status was `"pending"`. -/
theorem c10_no_scheduled_status (s : MState) (hs : Reachable s) :
    (∀ id t, lookupTask s.tasks id = some t → t.status ≠ "scheduled") ∧
    (∀ id, (cancel_task s id).2 = true →
      ∃ t, lookupTask s.tasks id = some t ∧ t.status = "pending") := by
  have hOK := reachable_tasksOK s hs
  constructor
  · intro id t h
    exact (tasksOK_lookup _ _ _ hOK h).2
  · intro id hc
    cases hL : lookupTask s.tasks id with
    | none =>
      rw [cancel_task_none s id hL] at hc
      simp at hc
    | some t =>
      by_cases hstat : t.status = "pending" ∨ t.status = "scheduled"
      · rcases hstat with h1 | h1
        · exact ⟨t, rfl, h1⟩
        · exact absurd h1 (tasksOK_lookup _ _ _ hOK hL).2
      · rw [cancel_task_some_no s id t hL hstat] at hc
        simp at hc

theorem c10_no_scheduled_status_witness :
    reachExTask.status ≠ "scheduled" ∧ "0" ∈ reachEx.scheduled_tasks :=
  ⟨(c10_no_scheduled_status reachEx reachEx_reachable).1 "0" reachExTask (by decide), by decide⟩

/-- Recognises a `database.update_task` call in the trace. -/
def isDbUpdate : Event → Bool
  | .dbUpdate _ => true
  | _ => false

/-- C9: on every exit of `_execute_task` — success, terminal failure, a re-armed
retry chain, or a handler-raised exception (all environments `env`) — the task's
`active_tasks` entries are cleaned up (the final list is a permutation of the
initial one, and a task not active before is not active after), the final state is
persisted by a trailing `database.update_task`, and the call always returns with a
terminal status instead of propagating the handler's exception. -/
theorem c9_executor_cleanup (env : Env) (s : MState) (t : Task) :
    ((executeTask env s t).1.active_tasks).Perm s.active_tasks ∧
    (∃ d, (executeTask env s t).1.trace =
      s.trace ++ [Event.executing t] ++ d ++ [Event.dbUpdate (executeTask env s t).2]) ∧
    ((executeTask env s t).2.status = "completed" ∨ (executeTask env s t).2.status = "failed") ∧
    (t.id ∉ s.active_tasks → t.id ∉ (executeTask env s t).1.active_tasks) := by
  obtain ⟨hperm, hd, hstat, hid, hlook⟩ := executeTask_spec env s t
  refine ⟨hperm, hd, hstat, ?_⟩
  intro hmem hcon
  exact hmem (hperm.mem_iff.1 hcon)

theorem c9_executor_cleanup_witness :
    (executeTask envRaise initState c7task).1.active_tasks = [] ∧
    c7task.id ∉ (executeTask envRaise initState c7task).1.active_tasks := by
  refine ⟨by decide, ?_⟩
  exact (c9_executor_cleanup envRaise initState c7task).2.2.2 (by decide)

/-- Creates one task deferred to time 10 (used to reach a state with several
pending-but-deferred tasks). -/
def mkSched (s : MState) : MState := (create_task envOk s "weather" "" [] (some 10) 5).1

/-- Six tasks deferred to time 10, created on the fresh engine. -/
def c1sA : MState := mkSched (mkSched (mkSched (mkSched (mkSched (mkSched initState)))))

/-- The clock advanced past the six tasks' due time. -/
def c1sB : MState := { c1sA with now := c1sA.now + 11 }

/-- One call of `process_pending_tasks`: all six due pending tasks are handed to
`asyncio.create_task`. -/
def c1sC : MState := process_pending_tasks c1sB

/-- The event loop starts the six scheduled coroutines; each runs the prefix of
`_execute_task` and appends itself to `active_tasks`. -/
def c1sD : MState := startSpawned c1sC

/-- C1 (evaluation at the failing input): with the engine's budget
`max_concurrent_tasks = 5` and six due pending tasks, a single
`process_pending_tasks` call schedules all six — its `while` guard re-reads
`len(active_tasks)`, which cannot grow during the loop because
`asyncio.create_task` only defers the coroutine — so once the event loop starts
them `|active_tasks| = 6 > 5`: the concurrency bound is violated in a reachable
state. -/
theorem c1_bound_violated :
    Reachable c1sD ∧ c1sD.max_concurrent_tasks = 5 ∧ c1sD.active_tasks.length = 6 := by
  refine ⟨?_, by decide, by decide⟩
  have h1 : Reachable (mkSched initState) :=
    Relation.ReflTransGen.tail Relation.ReflTransGen.refl
      (Step.create initState envOk "weather" "" [] (some 10) 5)
  have h2 : Reachable (mkSched (mkSched initState)) :=
    Relation.ReflTransGen.tail h1
      (Step.create (mkSched initState) envOk "weather" "" [] (some 10) 5)
  have h3 : Reachable (mkSched (mkSched (mkSched initState))) :=
    Relation.ReflTransGen.tail h2
      (Step.create (mkSched (mkSched initState)) envOk "weather" "" [] (some 10) 5)
  have h4 : Reachable (mkSched (mkSched (mkSched (mkSched initState)))) :=
    Relation.ReflTransGen.tail h3
      (Step.create (mkSched (mkSched (mkSched initState))) envOk "weather" "" [] (some 10) 5)
  have h5 : Reachable (mkSched (mkSched (mkSched (mkSched (mkSched initState))))) :=
    Relation.ReflTransGen.tail h4
      (Step.create (mkSched (mkSched (mkSched (mkSched initState)))) envOk "weather" "" []
        (some 10) 5)
  have h6 : Reachable c1sA :=
    Relation.ReflTransGen.tail h5
      (Step.create (mkSched (mkSched (mkSched (mkSched (mkSched initState))))) envOk "weather"
        "" [] (some 10) 5)
  exact Relation.ReflTransGen.tail (Relation.ReflTransGen.tail (Relation.ReflTransGen.tail h6
    (Step.tick c1sA 11)) (Step.processPending c1sB)) (Step.spawnStart c1sC)

/-- C4 counterexample: the state reached by `create_task` with a future
`scheduled_at` holds the new task in the scheduled list while the task's status
is `"pending"` — the very status by which `process_pending_tasks` selects its
pending set (line 330) — so the task is a member of both the pending set and the
scheduled set at once, refuting exactly-one-set membership. -/
theorem c4_counterexample :
    (lookupTask reachEx.tasks "0").map Task.status = some "pending" ∧
    "0" ∈ reachEx.scheduled_tasks ∧ Reachable reachEx :=
  ⟨by decide, by decide, reachEx_reachable⟩

/-- The deferred task due at 10, created on the fresh engine. -/
def c5s1 : MState := (create_task envOk initState "weather" "" [] (some 10) 5).1

/-- The clock advanced to 11, past the due time. -/
def c5s2 : MState := { c5s1 with now := c5s1.now + 11 }

/-- State after `check_scheduled_tasks` past the due time. -/
def c5s3 : MState := check_scheduled_tasks envOk c5s2

/-- C5 counterexample: `check_scheduled_tasks` on a due task does not move it to
a pending queue — it removes it from the scheduled list and runs its handler to
completion inline (line 326): afterwards the task's status is `"completed"` and
an `_execute_task` entry was logged, refuting "without itself running the task's
handler". -/
theorem c5_counterexample :
    (lookupTask c5s3.tasks "0").map Task.status = some "completed" ∧
    "0" ∉ c5s3.scheduled_tasks ∧
    c5s3.trace.filter isExecuting ≠ [] := by
  refine ⟨by decide, by decide, by decide⟩

/-- C5 amended: before its due time, a task created with `scheduled_at = now+10`
stays in the scheduled list with status `"pending"`, nothing has executed it, and
`process_pending_tasks` does not start it (its eligibility guard at line 338
rejects it, so nothing is handed to the event loop); after the clock passes the
due time, `check_scheduled_tasks` removes it from the scheduled list and
immediately executes it — running the handler to terminal `"completed"` — rather
than moving it to a pending queue. -/
theorem c5_promotion_timeline :
    ((process_pending_tasks c5s1).spawnQueue = [] ∧
     "0" ∈ c5s1.scheduled_tasks ∧
     (lookupTask c5s1.tasks "0").map Task.status = some "pending" ∧
     c5s1.trace.filter isExecuting = []) ∧
    ("0" ∉ c5s3.scheduled_tasks ∧
     (lookupTask c5s3.tasks "0").map Task.status = some "completed" ∧
     c5s3.trace.filter isExecuting ≠ []) := by
  refine ⟨⟨by decide, by decide, by decide, by decide⟩, by decide, by decide, by decide⟩

/-- The unknown-task-type task: its handler run produces a result with an
`error` key via line 138, and its retry budget (`max_retries = 3`) is unspent. -/
def c2task : Task := { id := "t", type := "mystery", status := "pending", created_at := 0 }

/-- C2 counterexample: a handler run that returns a result containing an `error`
key — the unknown-task-type result — with `retry_count = 0 < max_retries = 3` is
NOT re-armed: `_execute_task` leaves the task `failed` with `retry_count` still 0
and emits no retry or backoff event, because the retry logic lives only in the
`except` branch (lines 152-159). -/
theorem c2_counterexample :
    (executeTask envOk initState c2task).2.status = "failed" ∧
    (executeTask envOk initState c2task).2.retry_count = 0 ∧
    c2task.max_retries = 3 ∧
    errTruthy (executeTask envOk initState c2task).2.result = true ∧
    (executeTask envOk initState c2task).1.trace.filter isRetryEvent = [] := by
  refine ⟨by decide, by decide, by decide, by decide, by decide⟩

/-- The result of creating an immediately-eligible task on the fresh engine. -/
def c3run : MState × String := create_task envOk initState "weather" "check weather" [] none 5

/-- C3 counterexample: `create_task` without `scheduled_at` does not place the
task into a pending queue and return — it executes the handler inline (line 99):
after `create_task` returns, the stored task is already `"completed"`, an
`_execute_task` entry and a `database.update_task` call are in the trace, so
enqueueing had side effects well beyond insertion. -/
theorem c3_counterexample :
    (lookupTask c3run.1.tasks c3run.2).map Task.status = some "completed" ∧
    c3run.1.trace.filter isExecuting ≠ [] ∧
    c3run.1.trace.filter isDbUpdate ≠ [] := by
  refine ⟨by decide, by decide, by decide⟩

theorem create_task_sched_eq (env : Env) (s : MState) (ty cmd : String)
    (ps : List (String × String)) (ts : Nat) (pr : Int) (h : s.now < ts) :
    create_task env s ty cmd ps (some ts) pr =
      ({ s with nextId := s.nextId + 1,
                tasks := setTask s.tasks (createdTask s ty cmd ps (some ts) pr),
                scheduled_tasks := s.scheduled_tasks ++ [toString s.nextId],
                trace := s.trace ++ [Event.dbSave (createdTask s ty cmd ps (some ts) pr)] },
        toString s.nextId) := by
  simp only [create_task]
  rw [if_pos h]
  rfl

theorem create_task_past_eq (env : Env) (s : MState) (ty cmd : String)
    (ps : List (String × String)) (ts : Nat) (pr : Int) (h : ¬ s.now < ts) :
    create_task env s ty cmd ps (some ts) pr =
      (let r := executeTask env
        { s with nextId := s.nextId + 1,
                 tasks := setTask s.tasks (createdTask s ty cmd ps (some ts) pr) }
        (createdTask s ty cmd ps (some ts) pr)
       ({ r.1 with trace := r.1.trace ++ [Event.dbSave r.2] }, toString s.nextId)) := by
  simp only [create_task]
  rw [if_neg h]
  rfl

theorem create_task_none_eq (env : Env) (s : MState) (ty cmd : String)
    (ps : List (String × String)) (pr : Int) :
    create_task env s ty cmd ps none pr =
      (let r := executeTask env
        { s with nextId := s.nextId + 1,
                 tasks := setTask s.tasks (createdTask s ty cmd ps none pr) }
        (createdTask s ty cmd ps none pr)
       ({ r.1 with trace := r.1.trace ++ [Event.dbSave r.2] }, toString s.nextId)) :=
  rfl

/-- C3 amended: `create_task` always stores the new task and returns its fresh
id; when `scheduled_at` is set and strictly in the future the task is appended to
the scheduled list, only `database.save_task` is called, and nothing executes;
otherwise `create_task` itself executes the task inline — the handler runs before
`create_task` returns, the stored record is already terminal (`completed` or
`failed`), not left pending for a later queue pass. -/
theorem c3_create_task (env : Env) (s : MState) (ty cmd : String)
    (ps : List (String × String)) (sa : Option Nat) (pr : Int) :
    (create_task env s ty cmd ps sa pr).2 = toString s.nextId ∧
    (∀ ts, sa = some ts → s.now < ts →
      (create_task env s ty cmd ps sa pr).1.scheduled_tasks =
        s.scheduled_tasks ++ [toString s.nextId] ∧
      lookupTask (create_task env s ty cmd ps sa pr).1.tasks (toString s.nextId) =
        some (createdTask s ty cmd ps sa pr) ∧
      (create_task env s ty cmd ps sa pr).1.trace =
        s.trace ++ [Event.dbSave (createdTask s ty cmd ps sa pr)]) ∧
    ((sa = none ∨ ∃ ts, sa = some ts ∧ ¬ s.now < ts) →
      (∃ d, (create_task env s ty cmd ps sa pr).1.trace =
        s.trace ++ [Event.executing (createdTask s ty cmd ps sa pr)] ++ d) ∧
      (∃ u, lookupTask (create_task env s ty cmd ps sa pr).1.tasks (toString s.nextId) =
          some u ∧ (u.status = "completed" ∨ u.status = "failed"))) := by
  have hid : (createdTask s ty cmd ps sa pr).id = toString s.nextId := rfl
  have himm : ∀ (s1 : MState), s1.trace = s.trace →
      s1.tasks = setTask s.tasks (createdTask s ty cmd ps sa pr) →
      (∃ d, (executeTask env s1 (createdTask s ty cmd ps sa pr)).1.trace ++
          [Event.dbSave (executeTask env s1 (createdTask s ty cmd ps sa pr)).2] =
        s.trace ++ [Event.executing (createdTask s ty cmd ps sa pr)] ++ d) ∧
      (∃ u, lookupTask (executeTask env s1 (createdTask s ty cmd ps sa pr)).1.tasks
          (toString s.nextId) = some u ∧ (u.status = "completed" ∨ u.status = "failed")) := by
    intro s1 htr htk
    obtain ⟨_, ⟨d, hd⟩, hstat, _, hlook⟩ := executeTask_spec env s1 (createdTask s ty cmd ps sa pr)
    constructor
    · refine ⟨d ++ [Event.dbUpdate (executeTask env s1 (createdTask s ty cmd ps sa pr)).2,
        Event.dbSave (executeTask env s1 (createdTask s ty cmd ps sa pr)).2], ?_⟩
      rw [hd, htr]
      simp [List.append_assoc]
    · refine ⟨(executeTask env s1 (createdTask s ty cmd ps sa pr)).2, ?_, hstat⟩
      rw [← hid]
      exact hlook
  cases sa with
  | none =>
    rw [create_task_none_eq]
    refine ⟨rfl, ?_, ?_⟩
    · intro ts hts
      exact absurd hts (by simp)
    · intro _
      exact himm _ rfl rfl
  | some ts =>
    by_cases h : s.now < ts
    · rw [create_task_sched_eq env s ty cmd ps ts pr h]
      refine ⟨rfl, ?_, ?_⟩
      · intro ts2 hts2 _
        refine ⟨rfl, ?_, rfl⟩
        have hself := lookupTask_setTask_self s.tasks (createdTask s ty cmd ps (some ts) pr)
        simpa [hid] using hself
      · intro hcon
        rcases hcon with hcon | ⟨ts2, hts2, hcon⟩
        · exact absurd hcon (by simp)
        · have hts : ts = ts2 := Option.some.inj hts2
          subst hts
          exact absurd h hcon
    · rw [create_task_past_eq env s ty cmd ps ts pr h]
      refine ⟨rfl, ?_, ?_⟩
      · intro ts2 hts2 hfut
        have : ts2 = ts := (Option.some.inj hts2).symm
        subst this
        exact absurd hfut h
      · intro _
        exact himm _ rfl rfl

theorem c3_create_task_witness :
    (create_task envOk initState "weather" "" [] (some 100) 5).1.scheduled_tasks =
      initState.scheduled_tasks ++ [toString initState.nextId] ∧
    (∃ d, (create_task envOk initState "weather" "check weather" [] none 5).1.trace =
      initState.trace ++
        [Event.executing (createdTask initState "weather" "check weather" [] none 5)] ++ d) := by
  constructor
  · exact ((c3_create_task envOk initState "weather" "" [] (some 100) 5).2.1 100 rfl
      (by decide)).1
  · exact ((c3_create_task envOk initState "weather" "check weather" [] none 5).2.2
      (Or.inl rfl)).1

/-- C4 amended: a task created with a strictly future `scheduled_at` is appended
to the scheduled list while keeping status `"pending"` — so it simultaneously
belongs to the scheduled set and to the status-pending set by which
`process_pending_tasks` selects work; exactly-one-set membership fails.  It is,
however, not in the active set. -/
theorem c4_scheduled_overlap (env : Env) (s : MState) (ty cmd : String)
    (ps : List (String × String)) (ts : Nat) (pr : Int)
    (hf : s.now < ts) (ha : toString s.nextId ∉ s.active_tasks) :
    (create_task env s ty cmd ps (some ts) pr).2 ∈
      (create_task env s ty cmd ps (some ts) pr).1.scheduled_tasks ∧
    lookupTask (create_task env s ty cmd ps (some ts) pr).1.tasks
      (create_task env s ty cmd ps (some ts) pr).2 =
      some (createdTask s ty cmd ps (some ts) pr) ∧
    (createdTask s ty cmd ps (some ts) pr).status = "pending" ∧
    (create_task env s ty cmd ps (some ts) pr).2 ∉
      (create_task env s ty cmd ps (some ts) pr).1.active_tasks := by
  rw [create_task_sched_eq env s ty cmd ps ts pr hf]
  refine ⟨by simp, ?_, rfl, by simpa using ha⟩
  have hself := lookupTask_setTask_self s.tasks (createdTask s ty cmd ps (some ts) pr)
  simpa using hself

theorem c4_scheduled_overlap_witness :
    (create_task envOk initState "weather" "" [] (some 100) 5).2 ∈
      (create_task envOk initState "weather" "" [] (some 100) 5).1.scheduled_tasks ∧
    (createdTask initState "weather" "" [] (some 100) 5).status = "pending" ∧
    (create_task envOk initState "weather" "" [] (some 100) 5).2 ∉
      (create_task envOk initState "weather" "" [] (some 100) 5).1.active_tasks := by
  have h := c4_scheduled_overlap envOk initState "weather" "" [] 100 5 (by decide) (by decide)
  exact ⟨h.1, h.2.2.1, h.2.2.2⟩

/-- C2 amended: the Executor's retry protocol fires only for handler-raised
exceptions.  (1) When the handler raises with retry budget remaining, the trace
shows the full re-arm protocol: the attempt entry, the caught error, the retry
log with the incremented `retry_count`, a `2 ^ retry_count` backoff sleep (with
the already-incremented count), and the re-execution of the same task with status
reset to `pending`, `completed_at` cleared, `retry_count` incremented and the
error result recorded.  (2) When the handler run merely returns a result carrying
an `error` key — in this engine exactly the unknown-task-type result of line
138 — the task is recorded `failed` with that result but never re-armed:
`retry_count` is unchanged and no retry or backoff event is emitted. -/
theorem c2_failure_paths :
    (∀ (env : Env) (s : MState) (t : Task) (msg : String),
      knownTypes.contains t.type = true →
      env { t with status := "running" } = some msg →
      t.retry_count < t.max_retries →
      ∃ d, (executeTask env s t).1.trace =
        s.trace ++ [Event.executing t, Event.errorLog t.id msg,
          Event.retrying t.id (t.retry_count + 1), Event.sleep (2 ^ (t.retry_count + 1)),
          Event.executing { t with
            status := "pending", result := [("error", msg)],
            completed_at := none, retry_count := t.retry_count + 1 }] ++ d) ∧
    (∀ (env : Env) (s : MState) (t : Task),
      knownTypes.contains t.type = false →
      (executeTask env s t).2.status = "failed" ∧
      (executeTask env s t).2.retry_count = t.retry_count ∧
      (executeTask env s t).2.result = [("error", "Unknown task type: " ++ t.type)] ∧
      (executeTask env s t).1.trace.filter isRetryEvent = s.trace.filter isRetryEvent) := by
  constructor
  · intro env s t msg hk he hg
    have hk2 : t.type ∈ knownTypes := by simpa using hk
    have hE : handlerOutcome env (beginAttempt s t).2 = .raised msg := by
      simp only [beginAttempt_snd]
      simp [handlerOutcome, hk2, he]
    obtain ⟨k, hkf⟩ : ∃ k, t.max_retries - t.retry_count = k + 1 :=
      ⟨t.max_retries - t.retry_count - 1, by omega⟩
    unfold executeTask
    rw [hkf]
    have hg2 : (recordFailure (beginAttempt s t).1 (beginAttempt s t).2 msg).2.retry_count <
        (recordFailure (beginAttempt s t).1 (beginAttempt s t).2 msg).2.max_retries := by
      simp only [recordFailure_snd, beginAttempt_snd]
      omega
    simp only [execRestFuel, hE]
    rw [if_pos hg2]
    set P := recordFailure (beginAttempt s t).1 (beginAttempt s t).2 msg with hP
    set Q := rearm P.1 P.2 with hQ
    set B := beginAttempt Q.1 Q.2 with hB
    have hadq : B.2.max_retries - B.2.retry_count ≤ k := by
      rw [hB, hQ, hP]
      simp only [beginAttempt_snd, rearm_snd, recordFailure_snd]
      omega
    obtain ⟨_, ⟨d, hd⟩, _, _, _⟩ := execRestFuel_spec env k B.1 B.2 hadq
    refine ⟨d ++ [Event.dbUpdate (execRestFuel env k B.1 B.2).2,
      Event.dbUpdate (execRestFuel env k B.1 B.2).2], ?_⟩
    simp only [finalizeTask]
    rw [hd]
    have hBtr : B.1.trace = s.trace ++ [Event.executing t, Event.errorLog t.id msg,
        Event.retrying t.id (t.retry_count + 1), Event.sleep (2 ^ (t.retry_count + 1)),
        Event.executing Q.2] := by
      rw [hB, hQ, hP]
      simp only [beginAttempt_fst, rearm_fst, recordFailure_fst, rearm_snd, recordFailure_snd,
        beginAttempt_snd]
      simp [List.append_assoc]
    have hQ2 : Q.2 = { t with
        status := "pending", result := [("error", msg)],
        completed_at := none, retry_count := t.retry_count + 1 } := by
      rw [hQ, hP]
      simp only [rearm_snd, recordFailure_snd, beginAttempt_snd]
    rw [hBtr, hQ2]
    simp [List.append_assoc]
  · intro env s t hk
    have hk2 : t.type ∉ knownTypes := by simpa using hk
    have h1 : ¬ t.type = "food_order" := fun h => hk2 (by simp [knownTypes, h])
    have h2 : ¬ t.type = "movie_booking" := fun h => hk2 (by simp [knownTypes, h])
    have h3 : ¬ t.type = "shopping" := fun h => hk2 (by simp [knownTypes, h])
    have h4 : ¬ t.type = "reminder" := fun h => hk2 (by simp [knownTypes, h])
    have h5 : ¬ t.type = "weather" := fun h => hk2 (by simp [knownTypes, h])
    have h6 : ¬ t.type = "news" := fun h => hk2 (by simp [knownTypes, h])
    have h7 : ¬ t.type = "search" := fun h => hk2 (by simp [knownTypes, h])
    have hres : builtinResult (beginAttempt s t).2 =
        [("error", "Unknown task type: " ++ t.type)] := by
      simp only [beginAttempt_snd]
      simp [builtinResult, h1, h2, h3, h4, h5, h6, h7]
    have hcon : ¬ (knownTypes.contains (beginAttempt s t).2.type = true) := by
      simp only [beginAttempt_snd]
      simpa using hk2
    have hE : handlerOutcome env (beginAttempt s t).2 =
        .ok [("error", "Unknown task type: " ++ t.type)] := by
      unfold handlerOutcome
      rw [if_neg hcon, hres]
    have hne : ("Unknown task type: " ++ t.type) ≠ "" := by
      intro hcon2
      have hlen := congrArg String.length hcon2
      rw [String.length_append] at hlen
      have h19 : ("Unknown task type: " : String).length = 19 := rfl
      rw [h19] at hlen
      simp at hlen
    have herr : errTruthy [("error", "Unknown task type: " ++ t.type)] = true := by
      simp [errTruthy, hne]
    have main : ∀ fuel, execRestFuel env fuel (beginAttempt s t).1 (beginAttempt s t).2 =
        applyOk (beginAttempt s t).1 (beginAttempt s t).2
          [("error", "Unknown task type: " ++ t.type)] := by
      intro fuel
      cases fuel <;> simp only [execRestFuel, hE]
    unfold executeTask
    rw [main (t.max_retries - t.retry_count)]
    refine ⟨?_, rfl, rfl, ?_⟩
    · simp [applyOk, finalizeTask, herr]
    · simp [applyOk, finalizeTask, beginAttempt_fst, isRetryEvent, List.filter_append]

theorem c2_failure_paths_witness :
    (∃ d, (executeTask envRaise initState c7task).1.trace =
      initState.trace ++ [Event.executing c7task, Event.errorLog c7task.id "boom",
        Event.retrying c7task.id (c7task.retry_count + 1),
        Event.sleep (2 ^ (c7task.retry_count + 1)),
        Event.executing { c7task with
          status := "pending", result := [("error", "boom")],
          completed_at := none, retry_count := c7task.retry_count + 1 }] ++ d) ∧
    (executeTask envOk initState c2task).2.status = "failed" ∧
    (executeTask envOk initState c2task).2.retry_count = c2task.retry_count := by
  refine ⟨?_, ?_, ?_⟩
  · exact c2_failure_paths.1 envRaise initState c7task "boom" (by decide) rfl (by decide)
  · exact (c2_failure_paths.2 envOk initState c2task (by decide)).1
  · exact (c2_failure_paths.2 envOk initState c2task (by decide)).2.1

end VedNet
